import Mathlib

/-!
Shallow embedding of the roguelike demo (`src/main.rs`, quicksilver engine).

Grid coordinates and sizes are stored in the Rust code as `Vector` (f32
components); every value the program ever stores there is a small integer
(positions are moved by ±1 and clamped into the map rectangle), so they are
embedded as `Int`.  Pixel-space quantities appearing in draw commands are
embedded as `ℚ` because the health-bar width is a genuine ratio
(`hp / max_hp * 100`).  The engine services (window, keyboard polling, fonts,
asynchronous assets) are external collaborators: the keyboard is an input to
`update`, the resolved-or-not state of each asset handle and the font
rasterizer are inputs to `draw`.  A Rust `panic` from an out-of-bounds index
is modelled as `none` / `Except.error`.
-/

namespace Roguelike

/-- Embeds quicksilver `Vector` as used for grid coordinates and grid sizes
(integer-valued in this program). -/
structure Vect where
  x : Int
  y : Int
deriving DecidableEq, Repr

/-- Embeds quicksilver `Color` (rgba). Only the named constants used by the
program are needed. -/
structure Color where
  r : ℚ
  g : ℚ
  b : ℚ
  a : ℚ
deriving DecidableEq, Repr

def Color.WHITE : Color := ⟨1, 1, 1, 1⟩
def Color.BLACK : Color := ⟨0, 0, 0, 1⟩
def Color.RED : Color := ⟨1, 0, 0, 1⟩
def Color.BLUE : Color := ⟨0, 0, 1, 1⟩
def Color.PURPLE : Color := ⟨1, 0, 1, 1⟩

/-- `Color::with_alpha`. -/
def Color.with_alpha (c : Color) (a : ℚ) : Color := { c with a := a }

/-- Embeds `struct Tile`. -/
structure Tile where
  pos : Vect
  glyph : Char
  color : Color
deriving DecidableEq, Repr

/-- Embeds `struct Entity`. -/
structure Entity where
  pos : Vect
  glyph : Char
  color : Color
  hp : Int
  max_hp : Int
deriving DecidableEq, Repr

/-- The keyboard keys the program reads (any other key is `other`). -/
inductive Key where
  | left | right | up | down | escape | y | n
  | other (code : Nat)
deriving DecidableEq, Repr

/-- Embeds quicksilver `ButtonState`.  `pressed` is the edge-triggered
"went down this frame" state; `held` is a key still down from an earlier
frame. -/
inductive ButtonState where
  | pressed | held | released | notPressed
deriving DecidableEq, Repr

/-- One frame's polled keyboard state (`window.keyboard()[key]`). -/
def Keyboard := Key → ButtonState

/-- Embeds the gameplay fields of `struct Game`.  The `Asset<_>` handles
(title, font infos, tileset, confirm-exit font) are futures owned by the
engine's asset loader; their resolved state is passed to `draw` separately
as `Assets`. -/
structure Game where
  map_size : Vect
  map : List Tile
  entities : List Entity
  player_id : Nat
  tile_size_px : Vect
  confirming_exit : Bool
deriving DecidableEq, Repr

/-- Embeds `generate_map`: iterate `x` in `0..width`, `y` in `0..height`;
every tile starts as a black floor `'.'` and border cells are overwritten
with the wall glyph `'#'`. -/
def generate_map (size : Vect) : List Tile :=
  let width := size.x.toNat
  let height := size.y.toNat
  (List.range width).flatMap fun (x : ℕ) =>
    (List.range height).map fun (y : ℕ) =>
      { pos := ⟨(x : Int), (y : Int)⟩
        glyph := if x = 0 ∨ x = width - 1 ∨ y = 0 ∨ y = height - 1 then '#' else '.'
        color := Color.BLACK : Tile }

/-- Embeds `generate_entities`: the fixed hardcoded list of five entities. -/
def generate_entities : List Entity :=
  [ { pos := ⟨9, 6⟩, glyph := 'g', color := Color.RED, hp := 1, max_hp := 1 },
    { pos := ⟨9, 6⟩, glyph := 'g', color := Color.RED, hp := 1, max_hp := 1 },
    { pos := ⟨2, 4⟩, glyph := 'g', color := Color.RED, hp := 1, max_hp := 1 },
    { pos := ⟨7, 5⟩, glyph := '%', color := Color.PURPLE, hp := 0, max_hp := 0 },
    { pos := ⟨4, 8⟩, glyph := '%', color := Color.PURPLE, hp := 0, max_hp := 0 } ]

/-- Embeds the gameplay part of `Game::new`: 20×15 map, the generated
entities plus the player appended, `player_id` the player's index. -/
def Game.new : Game :=
  let map_size : Vect := ⟨20, 15⟩
  let map := generate_map map_size
  let base := generate_entities
  let player_id := base.length
  let entities := base ++
    [{ pos := ⟨5, 3⟩, glyph := '@', color := Color.BLUE, hp := 3, max_hp := 5 : Entity }]
  { map_size := map_size, map := map, entities := entities,
    player_id := player_id, tile_size_px := ⟨24, 24⟩, confirming_exit := false }

/-- Result of one `update` frame: the new game state, plus whether
`window.close()` was requested (process termination). -/
structure UpdateResult where
  game : Game
  closed : Bool
deriving DecidableEq, Repr

/-- Embeds `Game::update`.  In the `confirming_exit` branch: `Y` closes the
window, else `N` or `Escape` clears the flag.  Otherwise the four direction
keys, when in the `Pressed` (edge) state, each move the player by one unit
with per-axis clamping, in source order Left, Right, Up, Down; then a
pressed `Escape` sets `confirming_exit`.  `none` models the panic of
`self.entities[self.player_id]` when the index is out of bounds. -/
def Game.update (g : Game) (kb : Keyboard) : Option UpdateResult :=
  if g.confirming_exit then
    if kb Key.y = ButtonState.pressed then
      some { game := g, closed := true }
    else if kb Key.n = ButtonState.pressed ∨ kb Key.escape = ButtonState.pressed then
      some { game := { g with confirming_exit := false }, closed := false }
    else
      some { game := g, closed := false }
  else
    if h : g.player_id < g.entities.length then
      let player := g.entities.get ⟨g.player_id, h⟩
      let x1 := if kb Key.left = ButtonState.pressed
        then max (player.pos.x - 1) 0 else player.pos.x
      let x2 := if kb Key.right = ButtonState.pressed
        then min (x1 + 1) (g.map_size.x - 1) else x1
      let y1 := if kb Key.up = ButtonState.pressed
        then max (player.pos.y - 1) 0 else player.pos.y
      let y2 := if kb Key.down = ButtonState.pressed
        then min (y1 + 1) (g.map_size.y - 1) else y1
      let g1 := { g with entities := g.entities.set g.player_id { player with pos := ⟨x2, y2⟩ } }
      let g2 := if kb Key.escape = ButtonState.pressed
        then { g1 with confirming_exit := true } else g1
      some { game := g2, closed := false }
    else
      none

/-- Runs a sequence of frames' updates from a state (the game loop's update
half); `none` if any frame panics. -/
def run (g : Game) : List Keyboard → Option Game
  | [] => some g
  | kb :: kbs =>
    match g.update kb with
    | none => none
    | some r => run r.game kbs

/-! ### The render step -/

/-- Pixel-space 2D vector (quicksilver `Vector` in pixel coordinates). -/
structure Vec2 where
  x : ℚ
  y : ℚ
deriving DecidableEq, Repr

/-- Embeds quicksilver `Rectangle`: position of top-left corner plus size. -/
structure Rect where
  pos : Vec2
  size : Vec2
deriving DecidableEq, Repr

/-- A loaded bitmap (quicksilver `Image`): an identity token for its pixel
content plus its size. -/
structure Image where
  id : Nat
  width : ℚ
  height : ℚ
deriving DecidableEq, Repr

/-- A loaded font handle (opaque external resource). -/
structure Font where
  id : Nat
deriving DecidableEq, Repr

/-- Embeds quicksilver `FontStyle` (point size and color). -/
structure FontStyle where
  size : ℚ
  color : Color
deriving DecidableEq, Repr

/-- The engine's text rasterizer `Font::render`, an external pure service. -/
def RenderFn := Font → String → FontStyle → Image

/-- The engine window, as far as `draw` reads it (`screen_size`, in whole
pixels: 800×600 in `main`). -/
structure Window where
  screen_size : Vect
deriving DecidableEq, Repr

/-- The resolved state of the five `Asset<_>` handles owned by `Game`:
`none` means the asynchronous load has not finished, in which case
`Asset::execute` skips its closure for this frame. -/
structure Assets where
  title : Option Image
  mononoki_font_info : Option Image
  square_font_info : Option Image
  tileset : Option (List (Char × Image))
  confirm_exit_font : Option Font
deriving DecidableEq, Repr

/-- `image.area()`: rectangle at the origin with the image's size. -/
def Image.area (img : Image) : Rect :=
  { pos := ⟨0, 0⟩, size := ⟨img.width, img.height⟩ }

/-- `Rectangle::with_center`. -/
def Rect.with_center (r : Rect) (c : Vec2) : Rect :=
  { r with pos := ⟨c.x - r.size.x / 2, c.y - r.size.y / 2⟩ }

/-- `Rectangle::translate`. -/
def Rect.translate (r : Rect) (v : Vec2) : Rect :=
  { r with pos := ⟨r.pos.x + v.x, r.pos.y + v.y⟩ }

/-- Componentwise product `Vector::times`. -/
def Vect.times (v w : Vect) : Vect := ⟨v.x * w.x, v.y * w.y⟩

/-- Vector addition. -/
def Vect.add (v w : Vect) : Vect := ⟨v.x + w.x, v.y + w.y⟩

/-- Grid/pixel vector cast into rational pixel space. -/
def Vect.toVec2 (v : Vect) : Vec2 := ⟨(v.x : ℚ), (v.y : ℚ)⟩

/-- One device draw call recorded by the render step, in emission order. -/
inductive DrawCmd where
  | clear (c : Color)
  | img (r : Rect) (image : Image)
  | blended (r : Rect) (image : Image) (c : Color)
  | col (r : Rect) (c : Color)
deriving DecidableEq, Repr

/-- Embeds the tile-drawing closure of `Game::draw`: for each tile look its
glyph up in the tileset; when present draw it blended with the tile color at
`tile.pos * tile_size + offset`, when absent draw nothing; the closure always
returns `Ok`. -/
def drawTiles (tileset : List (Char × Image)) (tile_size_px offset_px : Vect)
    (map : List Tile) : Except String (List DrawCmd) :=
  Except.ok <| map.filterMap fun tile =>
    (List.lookup tile.glyph tileset).map fun image =>
      DrawCmd.blended
        { pos := ((tile.pos.times tile_size_px).add offset_px).toVec2
          size := (Image.area image).size }
        image tile.color

/-- Embeds the entity-drawing closure of `Game::draw`: same lookup/skip rule
as the tiles, at `offset + entity.pos * tile_size`. -/
def drawEntities (tileset : List (Char × Image)) (tile_size_px offset_px : Vect)
    (entities : List Entity) : Except String (List DrawCmd) :=
  Except.ok <| entities.filterMap fun entity =>
    (List.lookup entity.glyph tileset).map fun image =>
      DrawCmd.blended
        { pos := (offset_px.add (entity.pos.times tile_size_px)).toVec2
          size := (Image.area image).size }
        image entity.color

/-- Embeds `Game::draw` as the sequence of draw commands of one frame.
Inputs: the window (for `screen_size`), the rasterizer service and the
resolved state of the asset handles.  An unresolved asset skips its segment.
`Except.error` models the panic of `self.entities[self.player_id]` on an
out-of-bounds index. -/
def Game.draw (g : Game) (w : Window) (render : RenderFn) (a : Assets) :
    Except String (List DrawCmd) := do
  let clearCmds := [DrawCmd.clear Color.WHITE]
  let titleCmds := match a.title with
    | some image =>
      [DrawCmd.img ((Image.area image).with_center
        ⟨((w.screen_size.x / 2 : Int) : ℚ), 40⟩) image]
    | none => []
  let mononokiCmds := match a.mononoki_font_info with
    | some image =>
      [DrawCmd.img ((Image.area image).translate
        ⟨2, ((w.screen_size.y - 60 : Int) : ℚ)⟩) image]
    | none => []
  let squareCmds := match a.square_font_info with
    | some image =>
      [DrawCmd.img ((Image.area image).translate
        ⟨2, ((w.screen_size.y - 30 : Int) : ℚ)⟩) image]
    | none => []
  let tile_size_px := g.tile_size_px
  let offset_px : Vect := ⟨175, 120⟩
  let tileCmds ← match a.tileset with
    | some ts => drawTiles ts tile_size_px offset_px g.map
    | none => pure []
  let entityCmds ← match a.tileset with
    | some ts => drawEntities ts tile_size_px offset_px g.entities
    | none => pure []
  if h : g.player_id < g.entities.length then
    let player := g.entities.get ⟨g.player_id, h⟩
    let full_health_width_px : ℚ := 100
    let current_health_width_px :=
      (player.hp : ℚ) / (player.max_hp : ℚ) * full_health_width_px
    let map_size_px := g.map_size.times tile_size_px
    let health_bar_pos_px := (offset_px.add ⟨map_size_px.x, 0⟩).toVec2
    let healthCmds :=
      [ DrawCmd.col { pos := health_bar_pos_px,
                      size := ⟨full_health_width_px, (tile_size_px.y : ℚ)⟩ }
          (Color.RED.with_alpha (1 / 2)),
        DrawCmd.col { pos := health_bar_pos_px,
                      size := ⟨current_health_width_px, (tile_size_px.y : ℚ)⟩ }
          Color.RED ]
    let dialogCmds :=
      if g.confirming_exit then
        match a.confirm_exit_font with
        | some font =>
          let text := render font "Are you sure you want to quit? (Y/N)"
            ⟨32, Color.BLACK⟩
          [DrawCmd.img ((Image.area text).translate ⟨100, 100⟩) text]
        | none => []
      else []
    pure (clearCmds ++ titleCmds ++ mononokiCmds ++ squareCmds ++
      tileCmds ++ entityCmds ++ healthCmds ++ dialogCmds)
  else
    Except.error "index out of bounds"

/-! ### Auxiliary definitions for statements and concrete frames -/

/-- A keyboard frame on which exactly the listed keys are in the freshly
pressed (edge) state and every other key is up. -/
def pressOnly (ks : List Key) : Keyboard :=
  fun k => if k ∈ ks then ButtonState.pressed else ButtonState.notPressed

/-- A keyboard frame on which every key is merely held down (no edge). -/
def allHeld : Keyboard := fun _ => ButtonState.held

/-- The window as `main` opens it: 800×600 pixels. -/
def main_window : Window := ⟨⟨800, 600⟩⟩

/-- The player entity slot of a game state. -/
def playerSlot (g : Game) : Option Entity := g.entities[g.player_id]?

/-- State invariant maintained by the update loop from `Game::new`: the map
size stays 20×15, the player index stays 5 in a 6-entity list, and the player
entity keeps `max_hp = 5` and a position inside the map rectangle. -/
def Inv (g : Game) : Prop :=
  g.map_size = (⟨20, 15⟩ : Vect) ∧
  g.player_id = 5 ∧
  g.entities.length = 6 ∧
  ∀ p ∈ playerSlot g,
    0 ≤ p.pos.x ∧ p.pos.x ≤ 19 ∧ 0 ≤ p.pos.y ∧ p.pos.y ≤ 14 ∧ p.max_hp = 5

/-! ### Theorems -/

/-- C4: `generate_entities` takes no input and always returns the same
ordered list of exactly 5 entities with the hardcoded positions, glyphs,
colors and hp/max_hp values: three monster markers `'g'` (red, hp 1/1, the
first two at (9,6), the third at (2,4)) and two item markers `'%'` (purple,
hp 0/0, at (7,5) and (4,8)). -/
theorem generate_entities_fixed :
    generate_entities =
      [ { pos := ⟨9, 6⟩, glyph := 'g', color := Color.RED, hp := 1, max_hp := 1 },
        { pos := ⟨9, 6⟩, glyph := 'g', color := Color.RED, hp := 1, max_hp := 1 },
        { pos := ⟨2, 4⟩, glyph := 'g', color := Color.RED, hp := 1, max_hp := 1 },
        { pos := ⟨7, 5⟩, glyph := '%', color := Color.PURPLE, hp := 0, max_hp := 0 },
        { pos := ⟨4, 8⟩, glyph := '%', color := Color.PURPLE, hp := 0, max_hp := 0 } ] ∧
    generate_entities.length = 5 :=
  ⟨rfl, rfl⟩

/-- C6: when `confirming_exit` is set, `update` never panics and changes
nothing but (possibly) the `confirming_exit` flag or requesting the window
close: for every keyboard frame the map, the whole entity list (hence the
player position), `player_id` and `map_size` are unchanged. -/
theorem confirming_update_preserves_world (g : Game) (kb : Keyboard)
    (hc : g.confirming_exit = true) :
    ∃ r, g.update kb = some r ∧ r.game.map = g.map ∧
      r.game.entities = g.entities ∧ r.game.player_id = g.player_id ∧
      r.game.map_size = g.map_size := by
  simp only [Game.update, hc, if_true]
  split_ifs with hy hn
  · exact ⟨_, rfl, rfl, rfl, rfl, rfl⟩
  · exact ⟨_, rfl, rfl, rfl, rfl, rfl⟩
  · exact ⟨_, rfl, rfl, rfl, rfl, rfl⟩

/-- Witness for C6 at a concrete state and frame. -/
theorem confirming_update_preserves_world_witness :
    ∃ r, ({ Game.new with confirming_exit := true } : Game).update allHeld = some r ∧
      r.game.map = ({ Game.new with confirming_exit := true } : Game).map ∧
      r.game.entities = ({ Game.new with confirming_exit := true } : Game).entities ∧
      r.game.player_id = ({ Game.new with confirming_exit := true } : Game).player_id ∧
      r.game.map_size = ({ Game.new with confirming_exit := true } : Game).map_size :=
  confirming_update_preserves_world { Game.new with confirming_exit := true } allHeld rfl

/-- C2: the two-state exit machine.  From Normal (given a valid player
index, which `Game::new` establishes): a pressed Escape, and only a pressed
Escape, makes `confirming_exit` true.  From ConfirmingExit: pressed `Y`
requests window close (process termination); otherwise pressed `N` or Escape
clears the flag; any other frame leaves the flag set. -/
theorem exit_state_machine (g : Game) (kb : Keyboard) :
    (g.confirming_exit = false → g.player_id < g.entities.length →
      ((kb Key.escape = ButtonState.pressed →
        ∃ r, g.update kb = some r ∧ r.game.confirming_exit = true ∧ r.closed = false) ∧
       (kb Key.escape ≠ ButtonState.pressed →
        ∃ r, g.update kb = some r ∧ r.game.confirming_exit = false ∧ r.closed = false))) ∧
    (g.confirming_exit = true →
      ((kb Key.y = ButtonState.pressed →
        g.update kb = some { game := g, closed := true }) ∧
       (kb Key.y ≠ ButtonState.pressed →
        (kb Key.n = ButtonState.pressed ∨ kb Key.escape = ButtonState.pressed) →
        g.update kb = some { game := { g with confirming_exit := false }, closed := false }) ∧
       (kb Key.y ≠ ButtonState.pressed → kb Key.n ≠ ButtonState.pressed →
        kb Key.escape ≠ ButtonState.pressed →
        g.update kb = some { game := g, closed := false }))) := by
  constructor
  · intro hmode hid
    constructor
    · intro hesc
      simp [Game.update, hmode, hid, hesc]
    · intro hesc
      simp [Game.update, hmode, hid, hesc]
  · intro hc
    refine ⟨fun hy => ?_, fun hy hn => ?_, fun hy hn hesc => ?_⟩
    · simp [Game.update, hc, hy]
    · simp [Game.update, hc, hy, hn]
    · simp [Game.update, hc, hy, hn, hesc]

/-- Normal form of `update` in the Normal state: the per-axis clamped moves
in source order (Left, Right on x; Up, Down on y), then Escape possibly
arming the exit confirmation. -/
theorem update_normal_eq (g : Game) (kb : Keyboard)
    (hmode : g.confirming_exit = false) (hid : g.player_id < g.entities.length) :
    g.update kb = some
      { game := { g with
          entities := g.entities.set g.player_id
            { g.entities.get ⟨g.player_id, hid⟩ with pos :=
              ⟨ (if kb Key.right = ButtonState.pressed
                  then min ((if kb Key.left = ButtonState.pressed
                    then max ((g.entities.get ⟨g.player_id, hid⟩).pos.x - 1) 0
                    else (g.entities.get ⟨g.player_id, hid⟩).pos.x) + 1) (g.map_size.x - 1)
                  else (if kb Key.left = ButtonState.pressed
                    then max ((g.entities.get ⟨g.player_id, hid⟩).pos.x - 1) 0
                    else (g.entities.get ⟨g.player_id, hid⟩).pos.x)),
                (if kb Key.down = ButtonState.pressed
                  then min ((if kb Key.up = ButtonState.pressed
                    then max ((g.entities.get ⟨g.player_id, hid⟩).pos.y - 1) 0
                    else (g.entities.get ⟨g.player_id, hid⟩).pos.y) + 1) (g.map_size.y - 1)
                  else (if kb Key.up = ButtonState.pressed
                    then max ((g.entities.get ⟨g.player_id, hid⟩).pos.y - 1) 0
                    else (g.entities.get ⟨g.player_id, hid⟩).pos.y)) ⟩ },
          confirming_exit := if kb Key.escape = ButtonState.pressed then true else false },
        closed := false } := by
  unfold Game.update
  rw [hmode]
  simp only [Bool.false_eq_true, if_false, hid, reduceDIte]
  split_ifs with hesc <;> simp [hmode]

/-- C1: in the Normal state (with the player index valid), each directional
key that is freshly pressed this frame moves the player by exactly one grid
unit in its direction with per-axis clamping (`max _ 0` below, `min _
(size-1)` above), perpendicular presses in one frame both apply, and a frame
on which no directional key is freshly pressed (keys may be merely held)
moves the player not at all. -/
theorem normal_movement (g : Game) (kb : Keyboard)
    (hmode : g.confirming_exit = false) (hid : g.player_id < g.entities.length) :
    ∃ p, g.entities[g.player_id]? = some p ∧ (g.update kb).isSome ∧
    ∀ r, g.update kb = some r → r.closed = false ∧
      ((kb Key.left = ButtonState.pressed → kb Key.right ≠ ButtonState.pressed →
        kb Key.up ≠ ButtonState.pressed → kb Key.down ≠ ButtonState.pressed →
        (playerSlot r.game).map Entity.pos = some ⟨max (p.pos.x - 1) 0, p.pos.y⟩) ∧
       (kb Key.right = ButtonState.pressed → kb Key.left ≠ ButtonState.pressed →
        kb Key.up ≠ ButtonState.pressed → kb Key.down ≠ ButtonState.pressed →
        (playerSlot r.game).map Entity.pos =
          some ⟨min (p.pos.x + 1) (g.map_size.x - 1), p.pos.y⟩) ∧
       (kb Key.up = ButtonState.pressed → kb Key.left ≠ ButtonState.pressed →
        kb Key.right ≠ ButtonState.pressed → kb Key.down ≠ ButtonState.pressed →
        (playerSlot r.game).map Entity.pos = some ⟨p.pos.x, max (p.pos.y - 1) 0⟩) ∧
       (kb Key.down = ButtonState.pressed → kb Key.left ≠ ButtonState.pressed →
        kb Key.right ≠ ButtonState.pressed → kb Key.up ≠ ButtonState.pressed →
        (playerSlot r.game).map Entity.pos =
          some ⟨p.pos.x, min (p.pos.y + 1) (g.map_size.y - 1)⟩) ∧
       (kb Key.left = ButtonState.pressed → kb Key.up = ButtonState.pressed →
        kb Key.right ≠ ButtonState.pressed → kb Key.down ≠ ButtonState.pressed →
        (playerSlot r.game).map Entity.pos =
          some ⟨max (p.pos.x - 1) 0, max (p.pos.y - 1) 0⟩) ∧
       (kb Key.left = ButtonState.pressed → kb Key.down = ButtonState.pressed →
        kb Key.right ≠ ButtonState.pressed → kb Key.up ≠ ButtonState.pressed →
        (playerSlot r.game).map Entity.pos =
          some ⟨max (p.pos.x - 1) 0, min (p.pos.y + 1) (g.map_size.y - 1)⟩) ∧
       (kb Key.right = ButtonState.pressed → kb Key.up = ButtonState.pressed →
        kb Key.left ≠ ButtonState.pressed → kb Key.down ≠ ButtonState.pressed →
        (playerSlot r.game).map Entity.pos =
          some ⟨min (p.pos.x + 1) (g.map_size.x - 1), max (p.pos.y - 1) 0⟩) ∧
       (kb Key.right = ButtonState.pressed → kb Key.down = ButtonState.pressed →
        kb Key.left ≠ ButtonState.pressed → kb Key.up ≠ ButtonState.pressed →
        (playerSlot r.game).map Entity.pos =
          some ⟨min (p.pos.x + 1) (g.map_size.x - 1),
                min (p.pos.y + 1) (g.map_size.y - 1)⟩) ∧
       (kb Key.left ≠ ButtonState.pressed → kb Key.right ≠ ButtonState.pressed →
        kb Key.up ≠ ButtonState.pressed → kb Key.down ≠ ButtonState.pressed →
        (playerSlot r.game).map Entity.pos = some p.pos)) := by
  refine ⟨g.entities.get ⟨g.player_id, hid⟩, List.getElem?_eq_getElem hid, ?_, ?_⟩
  · rw [update_normal_eq g kb hmode hid]; rfl
  · intro r hr
    rw [update_normal_eq g kb hmode hid] at hr
    cases hr
    refine ⟨rfl, ?_, ?_, ?_, ?_, ?_, ?_, ?_, ?_, ?_⟩ <;>
      intro h1 h2 h3 h4 <;>
      simp [playerSlot, List.getElem?_set_self hid, h1, h2, h3, h4]

/-- Witness for C1: from the initial state, a frame with only Left freshly
pressed moves the player from (5,3) to (4,3). -/
theorem normal_movement_witness :
    (Game.new.update (pressOnly [Key.left])).isSome ∧
    ∀ r, Game.new.update (pressOnly [Key.left]) = some r →
      (playerSlot r.game).map Entity.pos = some ⟨4, 3⟩ := by
  obtain ⟨p, hp, hs, hall⟩ := normal_movement Game.new (pressOnly [Key.left]) rfl (by decide)
  refine ⟨hs, fun r hr => ?_⟩
  have hval : Game.new.entities[Game.new.player_id]? =
      some { pos := ⟨5, 3⟩, glyph := '@', color := Color.BLUE, hp := 3, max_hp := 5 } := by
    decide
  rw [hval] at hp
  injection hp with hp
  have h := (hall r hr).2.1 rfl (by decide) (by decide) (by decide)
  rw [h, ← hp]
  decide

/-- Witness for C2: from the initial (Normal) state, pressing Escape enters
the confirmation state. -/
theorem exit_state_machine_witness :
    ∃ r, Game.new.update (pressOnly [Key.escape]) = some r ∧
      r.game.confirming_exit = true ∧ r.closed = false :=
  (exit_state_machine Game.new (pressOnly [Key.escape])).1 rfl (by decide)
    |>.1 (by decide)

/-- C9: a tile or entity whose glyph is not a key of the tileset contributes
no draw command (prepending it changes nothing), and the two drawing loops
return `Ok` for every tileset and every tile/entity list. -/
theorem missing_glyph_skipped :
    (∀ (ts : List (Char × Image)) (sz off : Vect) (t : Tile) (tiles : List Tile),
      List.lookup t.glyph ts = none →
      drawTiles ts sz off (t :: tiles) = drawTiles ts sz off tiles) ∧
    (∀ (ts : List (Char × Image)) (sz off : Vect) (e : Entity) (es : List Entity),
      List.lookup e.glyph ts = none →
      drawEntities ts sz off (e :: es) = drawEntities ts sz off es) ∧
    (∀ (ts : List (Char × Image)) (sz off : Vect) (tiles : List Tile),
      ∃ cmds, drawTiles ts sz off tiles = Except.ok cmds) ∧
    (∀ (ts : List (Char × Image)) (sz off : Vect) (es : List Entity),
      ∃ cmds, drawEntities ts sz off es = Except.ok cmds) := by
  refine ⟨?_, ?_, fun ts sz off tiles => ⟨_, rfl⟩, fun ts sz off es => ⟨_, rfl⟩⟩ <;>
  · intro ts sz off x xs h
    simp [drawTiles, drawEntities, h]

/-- Witness for C9: a tileset holding only `'#'` skips a tile and an entity
whose glyph is `'q'`. -/
theorem missing_glyph_skipped_witness :
    drawTiles [('#', ⟨0, 24, 24⟩)] ⟨24, 24⟩ ⟨175, 120⟩
        [{ pos := ⟨1, 1⟩, glyph := 'q', color := Color.BLACK }] =
      drawTiles [('#', ⟨0, 24, 24⟩)] ⟨24, 24⟩ ⟨175, 120⟩ [] ∧
    drawEntities [('#', ⟨0, 24, 24⟩)] ⟨24, 24⟩ ⟨175, 120⟩
        [{ pos := ⟨1, 1⟩, glyph := 'q', color := Color.BLACK, hp := 1, max_hp := 1 }] =
      drawEntities [('#', ⟨0, 24, 24⟩)] ⟨24, 24⟩ ⟨175, 120⟩ [] :=
  ⟨missing_glyph_skipped.1 [('#', ⟨0, 24, 24⟩)] ⟨24, 24⟩ ⟨175, 120⟩
      { pos := ⟨1, 1⟩, glyph := 'q', color := Color.BLACK } [] (by decide),
   missing_glyph_skipped.2.1 [('#', ⟨0, 24, 24⟩)] ⟨24, 24⟩ ⟨175, 120⟩
      { pos := ⟨1, 1⟩, glyph := 'q', color := Color.BLACK, hp := 1, max_hp := 1 } []
      (by decide)⟩

/-- `draw` succeeds whenever the player index is in range: its only failure
is the out-of-bounds panic, and the asset/tile/entity stages never error. -/
theorem draw_ok (g : Game) (w : Window) (render : RenderFn) (a : Assets)
    (hid : g.player_id < g.entities.length) :
    ∃ cmds, g.draw w render a = Except.ok cmds := by
  unfold Game.draw
  cases hts : a.tileset <;> simp only [drawTiles, drawEntities, hid, dite_true, reduceDIte] <;>
    exact ⟨_, rfl⟩

/-- C8: the render step is read-only and idempotent.  In this embedding
`Game.draw` consumes the game state immutably (mirroring that `Game::draw`
assigns no field of `self`), so repeating it with no intervening `update`
cannot change `map`, `entities`, `player_id`, `map_size` or
`confirming_exit`; this theorem states the remaining content: with the state
and asset snapshot fixed, every call succeeds and emits one and the same
command sequence. -/
theorem draw_readonly_idempotent (g : Game) (w : Window) (render : RenderFn)
    (a : Assets) (hid : g.player_id < g.entities.length) :
    ∃ cmds, g.draw w render a = Except.ok cmds ∧
      ∀ cmds2, g.draw w render a = Except.ok cmds2 → cmds2 = cmds := by
  obtain ⟨cmds, hc⟩ := draw_ok g w render a hid
  refine ⟨cmds, hc, fun cmds2 h2 => ?_⟩
  rw [hc] at h2
  exact (Except.ok.inj h2).symm

/-- Witness for C8 at the initial state with no asset resolved. -/
theorem draw_readonly_idempotent_witness :
    ∃ cmds, Game.new.draw main_window (fun _ _ _ => ⟨0, 0, 0⟩)
        ⟨none, none, none, none, none⟩ = Except.ok cmds ∧
      ∀ cmds2, Game.new.draw main_window (fun _ _ _ => ⟨0, 0, 0⟩)
        ⟨none, none, none, none, none⟩ = Except.ok cmds2 → cmds2 = cmds :=
  draw_readonly_idempotent Game.new main_window (fun _ _ _ => ⟨0, 0, 0⟩)
    ⟨none, none, none, none, none⟩ (by decide)

/-- C7: on the initial state the health bar is a background rectangle of the
full width 100 px and a foreground rectangle of width `hp / max_hp * 100 =
3/5 * 100 = 60 = 0.6 × 100` px at the same position, which lies just right
of the map's rendered bounding box (`x = 175 + 20·24 = 655`), for every
asset snapshot. -/
theorem health_bar_ratio (render : RenderFn) (a : Assets) :
    ∃ cmds, Game.new.draw main_window render a = Except.ok cmds ∧
      DrawCmd.col { pos := ⟨655, 120⟩, size := ⟨100, 24⟩ }
        (Color.RED.with_alpha (1 / 2)) ∈ cmds ∧
      DrawCmd.col { pos := ⟨655, 120⟩, size := ⟨60, 24⟩ } Color.RED ∈ cmds ∧
      (60 : ℚ) = 3 / 5 * 100 ∧ (60 : ℚ) = 6 / 10 * 100 ∧
      (655 : ℚ) = 175 + 20 * 24 := by
  have hid : Game.new.player_id < Game.new.entities.length := by decide
  cases hts : a.tileset <;>
  · simp only [Game.draw, drawTiles, drawEntities, hts, hid, dite_true, reduceDIte]
    refine ⟨_, rfl, ?_, ?_, by norm_num, by norm_num, by norm_num⟩ <;>
      norm_num [Game.new, generate_entities, Vect.add, Vect.times, Vect.toVec2,
        Color.with_alpha, Color.RED, List.mem_append, List.mem_cons]

/-- Witness for C7 with no asset resolved and a trivial rasterizer. -/
theorem health_bar_ratio_witness :
    ∃ cmds, Game.new.draw main_window (fun _ _ _ => ⟨0, 0, 0⟩)
        ⟨none, none, none, none, none⟩ = Except.ok cmds ∧
      DrawCmd.col { pos := ⟨655, 120⟩, size := ⟨100, 24⟩ }
        (Color.RED.with_alpha (1 / 2)) ∈ cmds ∧
      DrawCmd.col { pos := ⟨655, 120⟩, size := ⟨60, 24⟩ } Color.RED ∈ cmds ∧
      (60 : ℚ) = 3 / 5 * 100 ∧ (60 : ℚ) = 6 / 10 * 100 ∧
      (655 : ℚ) = 175 + 20 * 24 :=
  health_bar_ratio (fun _ _ _ => ⟨0, 0, 0⟩) ⟨none, none, none, none, none⟩

/-- The invariant holds at startup. -/
theorem inv_new : Inv Game.new := by
  refine ⟨rfl, rfl, by decide, fun p hp => ?_⟩
  have hv : playerSlot Game.new =
      some { pos := ⟨5, 3⟩, glyph := '@', color := Color.BLUE, hp := 3, max_hp := 5 } := by
    decide
  rw [hv, Option.mem_some_iff] at hp
  subst hp
  norm_num

/-- One `update` frame never panics from an invariant state and preserves
the invariant. -/
theorem inv_update (g : Game) (kb : Keyboard) (h : Inv g) :
    ∃ r, g.update kb = some r ∧ Inv r.game := by
  obtain ⟨hms, hpid, hlen, hplayer⟩ := h
  by_cases hc : g.confirming_exit = true
  · obtain ⟨r, hr, hmap, hent, hpid', hms'⟩ := confirming_update_preserves_world g kb hc
    refine ⟨r, hr, by rw [hms']; exact hms, by rw [hpid']; exact hpid,
      by rw [hent]; exact hlen, fun p hp => ?_⟩
    apply hplayer
    unfold playerSlot at hp ⊢
    rwa [hent, hpid'] at hp
  · rw [Bool.not_eq_true] at hc
    have hid : g.player_id < g.entities.length := by rw [hpid, hlen]; omega
    obtain ⟨hx0, hx1, hy0, hy1, hmax⟩ :=
      hplayer (g.entities.get ⟨g.player_id, hid⟩)
        (Option.mem_def.mpr (List.getElem?_eq_getElem hid))
    simp only [List.get_eq_getElem] at hx0 hx1 hy0 hy1 hmax
    rw [update_normal_eq g kb hc hid]
    refine ⟨_, rfl, hms, hpid, by simp [hlen], fun p hp => ?_⟩
    unfold playerSlot at hp
    rw [List.getElem?_set_self hid, Option.mem_some_iff] at hp
    subst hp
    refine ⟨?_, ?_, ?_, ?_, hmax⟩ <;>
    · simp [hms]
      split_ifs <;> omega

/-- Running any frame sequence from an invariant state keeps the invariant. -/
theorem run_inv (kbs : List Keyboard) (g0 : Game) (h : Inv g0) :
    ∀ g, run g0 kbs = some g → Inv g := by
  induction kbs generalizing g0 with
  | nil =>
    intro g hg
    simp only [run, Option.some.injEq] at hg
    subst hg
    exact h
  | cons kb kbs ih =>
    intro g hg
    obtain ⟨r, hr, hinv⟩ := inv_update g0 kb h
    rw [run, hr] at hg
    exact ih r.game hinv g hg

set_option maxRecDepth 8000 in
/-- C5: in every state reachable from the initial state by per-frame
updates, the player position stays inside
`[0, map_width-1] × [0, map_height-1]`; in particular one Left press from
(5,3) gives (4,3), fifteen Left presses pin x at the clamp 0, and
twenty-four Right presses pin x at the clamp 19. -/
theorem player_position_invariant :
    (∀ (kbs : List Keyboard) (g : Game), run Game.new kbs = some g →
      ∀ p ∈ playerSlot g, 0 ≤ p.pos.x ∧ p.pos.x ≤ g.map_size.x - 1 ∧
        0 ≤ p.pos.y ∧ p.pos.y ≤ g.map_size.y - 1) ∧
    ((run Game.new [pressOnly [Key.left]]).bind playerSlot).map Entity.pos =
      some ⟨4, 3⟩ ∧
    ((run Game.new (List.replicate 15 (pressOnly [Key.left]))).bind playerSlot).map
      Entity.pos = some ⟨0, 3⟩ ∧
    ((run Game.new (List.replicate 24 (pressOnly [Key.right]))).bind playerSlot).map
      Entity.pos = some ⟨19, 3⟩ := by
  refine ⟨?_, by rfl, by rfl, by rfl⟩
  intro kbs g hg p hp
  obtain ⟨hms, hpid, hlen, hplayer⟩ := run_inv kbs Game.new inv_new g hg
  obtain ⟨hx0, hx1, hy0, hy1, _⟩ := hplayer p hp
  refine ⟨hx0, ?_, hy0, ?_⟩
  · rw [hms]; show p.pos.x ≤ 20 - 1; omega
  · rw [hms]; show p.pos.y ≤ 15 - 1; omega

/-- Witness for C5: at the initial state (the empty frame sequence), the
player sits at (5,3), inside the 20×15 rectangle. -/
theorem player_position_invariant_witness :
    0 ≤ (5 : Int) ∧ (5 : Int) ≤ Game.new.map_size.x - 1 ∧
    0 ≤ (3 : Int) ∧ (3 : Int) ≤ Game.new.map_size.y - 1 := by
  have hv : playerSlot Game.new =
      some { pos := ⟨5, 3⟩, glyph := '@', color := Color.BLUE, hp := 3, max_hp := 5 } := by
    decide
  exact player_position_invariant.1 [] Game.new rfl
    { pos := ⟨5, 3⟩, glyph := '@', color := Color.BLUE, hp := 3, max_hp := 5 }
    (Option.mem_def.mpr hv)

/-- C10: in every state reachable from initialization, `player_id = 5`
indexes into the 6-entity list (entities are never added or removed), so the
`entities[player_id]` accesses in `update` and `draw` cannot go out of
bounds (`update` never returns `none`, `draw` never returns the
index-out-of-bounds error), and the player's `max_hp` stays 5, so the
`hp / max_hp` division in `draw` is never a division by zero. -/
theorem player_index_safety :
    ∀ (kbs : List Keyboard) (g : Game), run Game.new kbs = some g →
      g.player_id = 5 ∧ g.entities.length = 6 ∧ g.player_id < g.entities.length ∧
      (∀ p ∈ playerSlot g, p.max_hp = 5 ∧ p.max_hp ≠ 0) ∧
      (∀ kb, (g.update kb).isSome) ∧
      (∀ (w : Window) (render : RenderFn) (a : Assets),
        ∃ cmds, g.draw w render a = Except.ok cmds) := by
  intro kbs g hg
  have hinv := run_inv kbs Game.new inv_new g hg
  obtain ⟨hms, hpid, hlen, hplayer⟩ := hinv
  have hid : g.player_id < g.entities.length := by rw [hpid, hlen]; omega
  refine ⟨hpid, hlen, hid, fun p hp => ?_, fun kb => ?_, fun w render a =>
    draw_ok g w render a hid⟩
  · have h5 := (hplayer p hp).2.2.2.2
    exact ⟨h5, by omega⟩
  · obtain ⟨r, hr, _⟩ := inv_update g kb ⟨hms, hpid, hlen, hplayer⟩
    rw [hr]
    rfl

/-- Witness for C10 at the initial state. -/
theorem player_index_safety_witness :
    Game.new.player_id = 5 ∧ Game.new.entities.length = 6 ∧
    Game.new.player_id < Game.new.entities.length ∧
    (Game.new.update allHeld).isSome := by
  have h := player_index_safety [] Game.new rfl
  exact ⟨h.1, h.2.1, h.2.2.1, h.2.2.2.2.1 allHeld⟩

/-- `generate_map` on a natural-number size, with the `toNat` casts
discharged. -/
theorem generate_map_eq (W H : ℕ) :
    generate_map ⟨(W : Int), (H : Int)⟩ =
      (List.range W).flatMap fun (x : ℕ) => (List.range H).map fun (y : ℕ) =>
        { pos := ⟨(x : Int), (y : Int)⟩
          glyph := if x = 0 ∨ x = W - 1 ∨ y = 0 ∨ y = H - 1 then '#' else '.'
          color := Color.BLACK : Tile } := by
  unfold generate_map
  simp [Int.toNat_natCast]

/-- In `0..m+2` exactly the two values `0` and `m+1` satisfy the border
predicate. -/
theorem countP_border_range (m : ℕ) :
    (List.range (m + 2)).countP (fun y => decide (y = 0 ∨ y = m + 1)) = 2 := by
  rw [show m + 2 = (m + 1) + 1 from rfl, List.range_succ, List.countP_append]
  have h1 : (List.range (m + 1)).countP (fun y => decide (y = 0 ∨ y = m + 1)) =
      (List.range (m + 1)).countP (fun y => decide (y = 0)) := by
    apply List.countP_congr
    intro y hy
    simp only [List.mem_range] at hy
    simp only [decide_eq_true_eq]
    omega
  rw [h1, List.range_succ_eq_map, List.countP_cons]
  have h2 : (List.map Nat.succ (List.range m)).countP (fun y => decide (y = 0)) = 0 := by
    rw [List.countP_map]
    apply List.countP_eq_zero.mpr
    intro y hy
    simp
  simp [h2, List.countP_cons]

/-- C3: for every grid size (W,H) with W,H ≥ 3, `generate_map` returns
exactly W·H tiles, one per grid cell (pairwise distinct positions covering
every cell); a tile carries the wall glyph `'#'` iff its position lies on
the outer border and the floor glyph `'.'` otherwise; every tile is black;
and exactly `2W + 2H - 4` tiles are walls. -/
theorem map_border_walls (W H : ℕ) (hW : 3 ≤ W) (hH : 3 ≤ H) :
    (generate_map ⟨(W : Int), (H : Int)⟩).length = W * H ∧
    (∀ t ∈ generate_map ⟨(W : Int), (H : Int)⟩,
      t.color = Color.BLACK ∧ (t.glyph = '#' ∨ t.glyph = '.') ∧
      (t.glyph = '#' ↔ (t.pos.x = 0 ∨ t.pos.x = (W : Int) - 1 ∨
        t.pos.y = 0 ∨ t.pos.y = (H : Int) - 1))) ∧
    ((generate_map ⟨(W : Int), (H : Int)⟩).map Tile.pos).Nodup ∧
    (∀ x < W, ∀ y < H, (⟨(x : Int), (y : Int)⟩ : Vect) ∈
      (generate_map ⟨(W : Int), (H : Int)⟩).map Tile.pos) ∧
    (generate_map ⟨(W : Int), (H : Int)⟩).countP (fun t => t.glyph == '#') =
      2 * W + 2 * H - 4 := by
  rw [generate_map_eq]
  refine ⟨?_, ?_, ?_, ?_, ?_⟩
  · -- length
    rw [List.length_flatMap]
    have h : ∀ x ∈ List.range W,
        (List.length ∘ fun (x : ℕ) => (List.range H).map fun (y : ℕ) =>
          { pos := ⟨(x : Int), (y : Int)⟩
            glyph := if x = 0 ∨ x = W - 1 ∨ y = 0 ∨ y = H - 1 then '#' else '.'
            color := Color.BLACK : Tile }) x = H := by
      intro x hx
      simp
    rw [List.map_congr_left h, List.map_const', List.sum_replicate, List.length_range,
      smul_eq_mul]
  · -- per-tile glyph/color characterization
    intro t ht
    rw [List.mem_flatMap] at ht
    obtain ⟨x, hx, ht⟩ := ht
    rw [List.mem_map] at ht
    obtain ⟨y, hy, rfl⟩ := ht
    rw [List.mem_range] at hx
    rw [List.mem_range] at hy
    refine ⟨rfl, ?_, ?_⟩
    · dsimp only
      split_ifs <;> simp
    · dsimp only
      split_ifs with hc <;> simp <;> omega
  · -- pairwise distinct positions
    rw [List.map_flatMap]
    rw [List.nodup_flatMap]
    constructor
    · intro x hx
      simp only [List.map_map]
      refine List.Nodup.map ?_ (List.nodup_range H)
      intro a b hab
      simpa using congrArg Vect.y hab
    · refine (List.pairwise_lt_range W).imp ?_
      intro a b hab
      intro v hv hv'
      simp only [List.map_map, List.mem_map] at hv hv'
      obtain ⟨c, _, rfl⟩ := hv
      obtain ⟨d, _, hd⟩ := hv'
      have : (b : Int) = (a : Int) := by
        simpa using congrArg Vect.x hd
      omega
  · -- coverage of every cell
    intro x hx y hy
    rw [List.map_flatMap, List.mem_flatMap]
    refine ⟨x, List.mem_range.mpr hx, ?_⟩
    simp only [List.map_map, List.mem_map]
    exact ⟨y, List.mem_range.mpr hy, rfl⟩
  · -- wall count
    rw [List.flatMap_def, List.countP_flatten, List.map_map]
    have hcol : ∀ x ∈ List.range W,
        (List.countP (fun t => t.glyph == '#') ∘ fun (x : ℕ) => (List.range H).map fun (y : ℕ) =>
          { pos := ⟨(x : Int), (y : Int)⟩
            glyph := if x = 0 ∨ x = W - 1 ∨ y = 0 ∨ y = H - 1 then '#' else '.'
            color := Color.BLACK : Tile }) x =
        if x = 0 ∨ x = W - 1 then H else 2 := by
      intro x hx
      rw [List.mem_range] at hx
      simp only [Function.comp_apply]
      rw [List.countP_map]
      by_cases hxb : x = 0 ∨ x = W - 1
      · rw [if_pos hxb]
        have hall : ∀ y ∈ List.range H,
            ((fun t => t.glyph == '#') ∘ fun (y : ℕ) =>
              ({ pos := ⟨(x : Int), (y : Int)⟩
                 glyph := if x = 0 ∨ x = W - 1 ∨ y = 0 ∨ y = H - 1 then '#' else '.'
                 color := Color.BLACK } : Tile)) y = true := by
          intro y hy
          rcases hxb with h | h <;> simp [h]
        rw [List.countP_eq_length.mpr hall, List.length_range]
      · rw [if_neg hxb]
        push_neg at hxb
        obtain ⟨hx0, hxW⟩ := hxb
        have hcong : List.countP ((fun t => t.glyph == '#') ∘ fun (y : ℕ) =>
            ({ pos := ⟨(x : Int), (y : Int)⟩
               glyph := if x = 0 ∨ x = W - 1 ∨ y = 0 ∨ y = H - 1 then '#' else '.'
               color := Color.BLACK } : Tile)) (List.range H) =
            List.countP (fun y => decide (y = 0 ∨ y = H - 1)) (List.range H) := by
          apply List.countP_congr
          intro y hy
          rw [List.mem_range] at hy
          simp only [Function.comp_apply, beq_iff_eq, decide_eq_true_eq]
          by_cases hc : x = 0 ∨ x = W - 1 ∨ y = 0 ∨ y = H - 1
          · rw [if_pos hc]
            simp only [true_iff]
            tauto
          · rw [if_neg hc]
            constructor
            · intro h
              exact absurd h (by decide)
            · intro h
              exact absurd (Or.inr (Or.inr h)) hc
        rw [hcong]
        obtain ⟨m, rfl⟩ : ∃ m, H = m + 2 := ⟨H - 2, by omega⟩
        have hre : (fun y => decide (y = 0 ∨ y = m + 2 - 1)) =
            (fun y => decide (y = 0 ∨ y = m + 1)) := by
          norm_num
        rw [hre]
        exact countP_border_range m
    rw [List.map_congr_left hcol]
    obtain ⟨k, rfl⟩ : ∃ k, W = k + 2 := ⟨W - 2, by omega⟩
    rw [show k + 2 = (k + 1) + 1 from rfl, List.range_succ, List.map_append,
      List.sum_append, List.range_succ_eq_map, List.map_cons, List.sum_cons,
      List.map_map]
    have hmid : ∀ j ∈ List.range k,
        ((fun x => if x = 0 ∨ x = k + 1 + 1 - 1 then H else 2) ∘ Nat.succ) j = 2 := by
      intro j hj
      rw [List.mem_range] at hj
      simp only [Function.comp_apply]
      rw [if_neg]
      omega
    rw [List.map_congr_left hmid, List.map_const', List.sum_replicate,
      List.length_range, smul_eq_mul]
    norm_num
    omega

/-- Witness for C3 on the smallest allowed grid, 3×3: nine tiles, eight of
them walls. -/
theorem map_border_walls_witness :
    (generate_map ⟨((3 : ℕ) : Int), ((3 : ℕ) : Int)⟩).length = 3 * 3 ∧
    (generate_map ⟨((3 : ℕ) : Int), ((3 : ℕ) : Int)⟩).countP
      (fun t => t.glyph == '#') = 2 * 3 + 2 * 3 - 4 :=
  ⟨(map_border_walls 3 3 (by norm_num) (by norm_num)).1,
   (map_border_walls 3 3 (by norm_num) (by norm_num)).2.2.2.2⟩

end Roguelike
